import Mathlib

/-!
Shallow embedding of the numeric/state core of `src/src/App.js`
(gradient-descent teaching simulator: model y = a·x, MSE loss).

JS numbers are modelled by `ℚ` (the spec's `round(x,4)` idealisation of
`parseFloat(x.toFixed(4))` is `round4`).  The one place a non-finite JS
value can arise in the core — the division `totalGradientSum / n` with
`n = 0` in `calculateGradientDetails`, which yields `NaN` in JS — is
modelled by `jsDiv`, which returns `none` for a zero divisor.
-/

namespace GradientDescentSim

/-- One user-editable data point (the `dataPoints` state, App.js line 20). -/
structure Point where
  x : ℚ
  y : ℚ
deriving DecidableEq, Repr

/-- Per-point gradient breakdown produced by `calculateGradientDetails`
(App.js lines 61–68). -/
structure PointGradient where
  id : ℕ
  x : ℚ
  y : ℚ
  prediction : ℚ
  errorTerm : ℚ
  contribution : ℚ
deriving DecidableEq, Repr

/-- One history entry appended by `performSingleStep` (App.js lines 98–103). -/
structure StepRecord where
  step : ℕ
  a : ℚ
  mse : ℚ
  gradient : ℚ
deriving DecidableEq, Repr

/-- The `stepDetails` state set by `performSingleStep` (App.js line 107). -/
structure StepDetails where
  pointGradients : List PointGradient
  finalGradient : ℚ
  currentA : ℚ
deriving DecidableEq, Repr

/-- A JS number as produced by `parseFloat`: either a finite value or `NaN`
(for non-numeric input).  `nan` also stands in for the non-finite result of
a zero-divisor division. -/
inductive JSNum where
  | num (q : ℚ)
  | nan
deriving DecidableEq, Repr

/-- Model of `parseFloat` applied to a raw input string, with the string abstracted to
the rational it denotes (`some q`) or `none` when it denotes no number
(empty or non-numeric input), in which case JS returns `NaN`. -/
def jsParseFloat (raw : Option ℚ) : JSNum :=
  match raw with
  | some q => JSNum.num q
  | none => JSNum.nan

/-- JS `v || d`: returns `d` when `v` is falsy (`NaN`, `0`, `-0`), else the
numeric value of `v`.  This is the coercion used at App.js line 142
(`parseFloat(value) || 0`). -/
def jsOr (v : JSNum) (d : ℚ) : ℚ :=
  match v with
  | JSNum.num q => if q = 0 then d else q
  | JSNum.nan => d

/-- JS division restricted to the finite case: `none` models the non-finite
result (`0/0 = NaN` is the only case the program can produce, at
App.js line 71 when the dataset is empty). -/
def jsDiv (a b : ℚ) : Option ℚ :=
  if b = 0 then none else some (a / b)

/-- Model of `parseFloat(x.toFixed(4))` (App.js lines 100–102): round to 4 decimal
places, ties away from zero, as the spec's `round(x, 4)`. -/
def round4 (x : ℚ) : ℚ :=
  if x < 0 then -(((Int.floor ((-x) * 10000 + 1/2) : ℤ) : ℚ) / 10000)
  else ((Int.floor (x * 10000 + 1/2) : ℤ) : ℚ) / 10000

/-- Embedding of `calculateMSE` (App.js lines 41–49).  The JS `!data` null-guard has no
counterpart (a Lean list is never null); the length guard is kept. -/
def calculateMSE (a : ℚ) (data : List Point) : ℚ :=
  if data.length = 0 then 0
  else
    let sumSquaredError := data.foldl (fun acc point =>
      let prediction := a * point.x
      let error := prediction - point.y
      acc + error * error) 0
    sumSquaredError / (data.length : ℚ)

/-- Result of `calculateGradientDetails` (App.js line 72). -/
structure GradientDetails where
  finalGradient : Option ℚ
  pointGradients : List PointGradient
deriving DecidableEq, Repr

/-- Embedding of `calculateGradientDetails` (App.js lines 51–73).  The JS code accumulates
`totalGradientSum` imperatively inside the `map` callback; here it is the sum
of the produced contributions, which is the same value.  `finalGradient` is
`totalGradientSum / n` via `jsDiv`: `none` (JS `NaN`) exactly when `n = 0`. -/
def calculateGradientDetails (a : ℚ) (data : List Point) : GradientDetails :=
  let n := data.length
  let pointGradients := data.mapIdx (fun index p =>
    let prediction := a * p.x
    let errorTerm := prediction - p.y
    let contribution := 2 * errorTerm * p.x
    { id := index + 1, x := p.x, y := p.y, prediction := prediction,
      errorTerm := errorTerm, contribution := contribution })
  let totalGradientSum := (pointGradients.map (fun g => g.contribution)).sum
  { finalGradient := jsDiv totalGradientSum (n : ℚ), pointGradients := pointGradients }

/-- The component state of `App` that the claims are about.  `manualA` is the
spec's `currentSlope`, `gdHistory` the History, `isAnimating` the running
flag.  `initialA` and `learningRate` are stored as the rationals their input
strings denote (the non-numeric-input path is modelled separately by
`jsParseFloat`). -/
structure SimState where
  dataPoints : List Point
  manualA : ℚ
  learningRate : ℚ
  initialA : ℚ
  gdHistory : List StepRecord
  isAnimating : Bool
  currentStep : ℕ
  stepDetails : Option StepDetails
deriving DecidableEq, Repr

/-- Constant `iterations = 30` (App.js line 30): the spec's `maxIterations`. -/
def iterations : ℕ := 30

/-- Embedding of `performSingleStep` (App.js lines 77–112), with the React `setX` calls
turned into a single state-to-state function.  When the history is empty the
code first sets `manualA` to `startA` and later overwrites it with `nextA`;
the early return on `nextStepIndex > iterations` can only fire with a
non-empty history (where nothing was set), so it is a genuine no-op.
`finalGradient.getD 0` recovers the rational from `jsDiv`; on every dataset
the UI can produce (non-empty) the value is `some`, so the default is inert. -/
def performSingleStep (s : SimState) : SimState :=
  let startA := if s.gdHistory.length > 0 then s.manualA else s.initialA
  let nextStepIndex := if s.gdHistory.length > 0 then s.currentStep + 1 else 0
  let currentHistory := if s.gdHistory.length > 0 then s.gdHistory else []
  let s1 := if s.gdHistory.length > 0 then s else { s with manualA := startA }
  if nextStepIndex > iterations then s1
  else
    let mse := calculateMSE startA s.dataPoints
    let gd := calculateGradientDetails startA s.dataPoints
    let finalGradient := gd.finalGradient.getD 0
    let newHistoryEntry : StepRecord :=
      { step := nextStepIndex, a := round4 startA, mse := round4 mse,
        gradient := round4 finalGradient }
    let nextA := startA - s.learningRate * finalGradient
    { s1 with
      gdHistory := currentHistory ++ [newHistoryEntry],
      stepDetails := some { pointGradients := gd.pointGradients,
                            finalGradient := finalGradient, currentA := startA },
      currentStep := nextStepIndex,
      manualA := nextA }

/-- Embedding of `stopSimulation` (App.js lines 126–129).  Clearing the pending timeout is
outside the state model; the observable effect is `isAnimating := false`. -/
def stopSimulation (s : SimState) : SimState :=
  { s with isAnimating := false }

/-- Embedding of `startSimulation` (App.js lines 114–124). -/
def startSimulation (s : SimState) : SimState :=
  if s.isAnimating then stopSimulation s
  else
    let s1 := if s.gdHistory.length = 0 then
        { s with manualA := s.initialA, currentStep := 0 }
      else s
    { s1 with isAnimating := true }

/-- Embedding of `resetSimulation` (App.js lines 147–153): clears history and details,
stops the animation, and restores `manualA` from `initialA`. -/
def resetSimulation (s : SimState) : SimState :=
  { s with gdHistory := [], stepDetails := none, isAnimating := false,
           currentStep := 0, manualA := s.initialA }

/-- Which coordinate of a data point an edit targets. -/
inductive Coord where
  | x
  | y
deriving DecidableEq, Repr

def setCoord (p : Point) : Coord → ℚ → Point
  | Coord.x, v => { p with x := v }
  | Coord.y, v => { p with y := v }

def getCoord (p : Point) : Coord → ℚ
  | Coord.x => p.x
  | Coord.y => p.y

/-- Embedding of `handleDataChange` (App.js lines 140–145): replaces one coordinate of one
point with `parseFloat(value) || 0` and resets the simulation.  The UI only
emits in-range indices; an out-of-range index leaves the list unchanged. -/
def handleDataChange (s : SimState) (index : ℕ) (field : Coord) (value : Option ℚ) :
    SimState :=
  let newData := s.dataPoints.mapIdx (fun i p =>
    if i = index then setCoord p field (jsOr (jsParseFloat value) 0) else p)
  resetSimulation { s with dataPoints := newData }

/-- onChange of the initial-slope input (App.js line 328):
`setInitialA(e.target.value); resetSimulation();`.  `resetSimulation` is the
closure created in the current render, so its `setManualA(parseFloat(initialA))`
reads the PREVIOUS `initialA` — the scheduled update has not landed.  The
resulting state therefore has `manualA` equal to the old initial slope while
`initialA` holds the new one. -/
def handleInitialAChange (s : SimState) (value : ℚ) : SimState :=
  { resetSimulation s with initialA := value }

/-- onChange of the learning-rate input (App.js line 333):
`setLearningRate(e.target.value); resetSimulation();`.  `resetSimulation`
does not read `learningRate`, so no staleness is observable here. -/
def handleLearningRateChange (s : SimState) (value : ℚ) : SimState :=
  { resetSimulation s with learningRate := value }

/-- onChange of the manual slope slider (App.js lines 305–308):
`stopSimulation(); setManualA(parseFloat(e.target.value));`. -/
def handleManualAChange (s : SimState) (value : ℚ) : SimState :=
  { stopSimulation s with manualA := value }

/-- The dataset installed by `resetAll` (App.js lines 156–161). -/
def resetAllData : List Point :=
  [⟨1, 2⟩, ⟨2, 4⟩, ⟨3, 5⟩, ⟨4, 7⟩, ⟨5, 11⟩, ⟨6, 11⟩, ⟨7, 14⟩, ⟨8, 17⟩,
   ⟨9, 20⟩, ⟨10, 21⟩]

/-- Embedding of `resetAll` (App.js lines 155–164).  As in `handleInitialAChange`, the
`resetSimulation` call reads the pre-update `initialA`. -/
def resetAll (s : SimState) : SimState :=
  { resetSimulation { s with dataPoints := resetAllData } with initialA := 0 }

/-- The initial dataset (App.js lines 20–25). -/
def initialDataPoints : List Point :=
  [⟨20, 45⟩, ⟨22, 50⟩, ⟨24, 55⟩, ⟨25, 60⟩, ⟨28, 65⟩, ⟨30, 72⟩, ⟨31, 76⟩,
   ⟨33, 82⟩, ⟨34, 85⟩, ⟨35, 90⟩]

/-- The initial component state (App.js lines 20–36). -/
def initialState : SimState :=
  { dataPoints := initialDataPoints, manualA := 3/2, learningRate := 1/100,
    initialA := 0, gdHistory := [], isAnimating := false, currentStep := 0,
    stepDetails := none }

/-- The externally-triggered operations of the step controller: single-step
button and timer tick (`step`), play/pause (`toggleRun`), explicit stop,
explicit reset, reset-to-defaults, a data-coordinate edit, hyperparameter
edits, and the manual slider override. -/
inductive Event where
  | step
  | toggleRun
  | stop
  | reset
  | resetDefaults
  | dataEdit (index : ℕ) (field : Coord) (value : Option ℚ)
  | initialAEdit (value : ℚ)
  | learningRateEdit (value : ℚ)
  | manualOverride (value : ℚ)

/-- Dispatch of one UI event to its handler. -/
def applyEvent (s : SimState) : Event → SimState
  | Event.step => performSingleStep s
  | Event.toggleRun => startSimulation s
  | Event.stop => stopSimulation s
  | Event.reset => resetSimulation s
  | Event.resetDefaults => resetAll s
  | Event.dataEdit i f v => handleDataChange s i f v
  | Event.initialAEdit v => handleInitialAChange s v
  | Event.learningRateEdit v => handleLearningRateChange s v
  | Event.manualOverride v => handleManualAChange s v

/-- A state is reachable when some event sequence produces it from the
initial state. -/
def Reachable (s : SimState) : Prop :=
  ∃ evs : List Event, s = evs.foldl applyEvent initialState

/-- The spec's `startSlope` for the next `step()`: `initialSlope` on an empty
history, else the current slope (App.js lines 78–91). -/
def startSlope (s : SimState) : ℚ :=
  if s.gdHistory = [] then s.initialA else s.manualA

/-- The spec's `nextIndex` for the next `step()`: `0` on an empty history,
else `currentStep + 1` (App.js lines 79–91). -/
def nextIndex (s : SimState) : ℕ :=
  if s.gdHistory = [] then 0 else s.currentStep + 1

/-- The value the step controller actually uses for the initial slope:
`parseFloat` of the raw stored input (App.js lines 78, 152, 328) — no
`|| 0` fallback on this path. -/
def initialSlopeParsed (raw : Option ℚ) : JSNum := jsParseFloat raw

/-- The value the step controller actually uses for the learning rate:
`parseFloat` of the raw stored input (App.js lines 110, 333) — no
`|| 0` fallback on this path. -/
def learningRateParsed (raw : Option ℚ) : JSNum := jsParseFloat raw

/-- The value stored for an edited data coordinate:
`parseFloat(value) || 0` (App.js line 142). -/
def dataCoordParsed (raw : Option ℚ) : ℚ := jsOr (jsParseFloat raw) 0

/-! ## Helper lemmas -/

lemma gdHistory_length_pos_iff (s : SimState) :
    s.gdHistory.length > 0 ↔ ¬ s.gdHistory = [] := by
  simp [List.length_pos]

/-- Closed form of `performSingleStep`: terminal no-op past `iterations`,
otherwise append one record, advance `currentStep`, and apply the
gradient-descent update to `manualA`. -/
lemma performSingleStep_eq (s : SimState) :
    performSingleStep s =
      if iterations < nextIndex s then s
      else
        { s with
          gdHistory := s.gdHistory ++
            [{ step := nextIndex s, a := round4 (startSlope s),
               mse := round4 (calculateMSE (startSlope s) s.dataPoints),
               gradient := round4
                 ((calculateGradientDetails (startSlope s) s.dataPoints).finalGradient.getD 0) }],
          stepDetails := some
            { pointGradients :=
                (calculateGradientDetails (startSlope s) s.dataPoints).pointGradients,
              finalGradient :=
                (calculateGradientDetails (startSlope s) s.dataPoints).finalGradient.getD 0,
              currentA := startSlope s },
          currentStep := nextIndex s,
          manualA := startSlope s - s.learningRate *
            (calculateGradientDetails (startSlope s) s.dataPoints).finalGradient.getD 0 } := by
  by_cases hh : s.gdHistory = []
  · simp [performSingleStep, startSlope, nextIndex, hh, iterations]
  · have hlen : s.gdHistory.length > 0 := (gdHistory_length_pos_iff s).mpr hh
    simp [performSingleStep, startSlope, nextIndex, hh, hlen]

/-- The run-history invariant used for C4: the recorded `step` fields
enumerate `0, 1, …`, the history is bounded, and on a non-empty history
`currentStep` indexes the last record. -/
def Inv (s : SimState) : Prop :=
  s.gdHistory.map StepRecord.step = List.range s.gdHistory.length ∧
  s.gdHistory.length ≤ iterations + 1 ∧
  (s.gdHistory ≠ [] → s.currentStep + 1 = s.gdHistory.length)

lemma inv_of_nil (s : SimState) (h1 : s.gdHistory = []) : Inv s := by
  refine ⟨?_, ?_, ?_⟩ <;> simp [h1, iterations]

lemma inv_congr {s t : SimState} (h1 : t.gdHistory = s.gdHistory)
    (h2 : t.currentStep = s.currentStep) (h : Inv s) : Inv t := by
  simp only [Inv] at h ⊢
  rw [h1, h2]
  exact h

lemma inv_initialState : Inv initialState := inv_of_nil _ rfl

lemma inv_performSingleStep (s : SimState) (h : Inv s) : Inv (performSingleStep s) := by
  rw [performSingleStep_eq]
  by_cases hterm : iterations < nextIndex s
  · rw [if_pos hterm]
    exact h
  · rw [if_neg hterm]
    have hle : nextIndex s ≤ iterations := Nat.not_lt.mp hterm
    have hidx : nextIndex s = s.gdHistory.length := by
      by_cases hh : s.gdHistory = []
      · simp [nextIndex, hh]
      · simp only [nextIndex, hh, ite_false, if_false]
        exact h.2.2 hh
    refine ⟨?_, ?_, ?_⟩
    · simp only [List.map_append, List.map_cons, List.map_nil, List.length_append,
        List.length_cons, List.length_nil, h.1, hidx]
      rw [show s.gdHistory.length + 0 + 1 = Nat.succ s.gdHistory.length by omega,
        List.range_succ]
    · simp only [List.length_append, List.length_cons, List.length_nil]
      omega
    · intro _
      simp only [List.length_append, List.length_cons, List.length_nil]
      omega

lemma inv_startSimulation (s : SimState) (h : Inv s) : Inv (startSimulation s) := by
  by_cases ha : s.isAnimating
  · simp only [startSimulation, ha, if_true, ite_true]
    exact inv_congr rfl rfl h
  · by_cases hh : s.gdHistory.length = 0
    · exact inv_of_nil _ (by simp [startSimulation, ha, hh, List.length_eq_zero.mp hh])
    · simp only [startSimulation, ha, hh, ite_false, if_false, Bool.false_eq_true]
      exact inv_congr rfl rfl h

lemma inv_applyEvent (s : SimState) (e : Event) (h : Inv s) : Inv (applyEvent s e) := by
  cases e with
  | step => exact inv_performSingleStep s h
  | toggleRun => exact inv_startSimulation s h
  | stop => exact inv_congr rfl rfl h
  | reset => exact inv_of_nil _ rfl
  | resetDefaults => exact inv_of_nil _ rfl
  | dataEdit i f v => exact inv_of_nil _ rfl
  | initialAEdit v => exact inv_of_nil _ rfl
  | learningRateEdit v => exact inv_of_nil _ rfl
  | manualOverride v => exact inv_congr rfl rfl h

lemma inv_foldl (evs : List Event) (s : SimState) (h : Inv s) :
    Inv (evs.foldl applyEvent s) := by
  induction evs generalizing s with
  | nil => exact h
  | cons e evs ih => exact ih (applyEvent s e) (inv_applyEvent s e h)

lemma inv_reachable (s : SimState) (h : Reachable s) : Inv s := by
  obtain ⟨evs, rfl⟩ := h
  exact inv_foldl evs initialState inv_initialState

/-- On a non-empty dataset the gradient division has a non-zero divisor, so
`finalGradient` is a finite value (`some`). -/
lemma finalGradient_some (a : ℚ) {data : List Point} (h : data ≠ []) :
    (calculateGradientDetails a data).finalGradient =
      some ((calculateGradientDetails a data).finalGradient.getD 0) := by
  have hn : (data.length : ℚ) ≠ 0 := by
    simpa using h
  simp only [calculateGradientDetails, jsDiv, hn, ite_false, if_false]
  rfl

/-- Folding `acc + f p` over a list starting from `c` is `c` plus the sum of
the mapped list (the shape of the `reduce` in `calculateMSE`). -/
lemma foldl_add_eq (f : Point → ℚ) (l : List Point) (c : ℚ) :
    l.foldl (fun acc p => acc + f p) c = c + (l.map f).sum := by
  induction l generalizing c with
  | nil => simp
  | cons p l ih => simp [ih, add_assoc]

/-- Mapping an index-independent projection over a `mapIdx` is a plain map. -/
lemma map_of_mapIdx {α β γ : Type} (f : ℕ → α → β) (g : β → γ) (F : α → γ)
    (hfg : ∀ i x, g (f i x) = F x) (l : List α) :
    (l.mapIdx f).map g = l.map F := by
  induction l generalizing f with
  | nil => simp
  | cons x l ih =>
      rw [List.mapIdx_cons, List.map_cons, List.map_cons, hfg]
      rw [ih (fun i => f (i + 1)) (fun i y => hfg (i + 1) y)]

/-- Doubling each summand doubles the sum. -/
lemma sum_map_two_mul (f : Point → ℚ) (l : List Point) :
    (l.map (fun p => 2 * f p)).sum = 2 * (l.map f).sum := by
  induction l with
  | nil => simp
  | cons p l ih => simp [ih, mul_add]

/-! ## Claim theorems -/

/-- C1: `step()` postcondition.  With `startSlope` and `nextIndex` as the
spec defines them (initial slope and `0` on an empty history, else the
current slope and `currentStep + 1`): past `maxIterations = 30` the step is
a no-op; otherwise it appends exactly one `StepRecord` with the 4-dp-rounded
start slope, MSE and gradient, sets `currentStep` to `nextIndex`, and sets
the current slope to `startSlope - learningRate * finalGradient` — one step
ahead of the record just written. -/
theorem step_postcondition (s : SimState) (hne : s.dataPoints ≠ []) :
    (iterations < nextIndex s → performSingleStep s = s) ∧
    (nextIndex s ≤ iterations →
      ∃ g, (calculateGradientDetails (startSlope s) s.dataPoints).finalGradient = some g ∧
        (performSingleStep s).gdHistory = s.gdHistory ++
          [{ step := nextIndex s, a := round4 (startSlope s),
             mse := round4 (calculateMSE (startSlope s) s.dataPoints),
             gradient := round4 g }] ∧
        (performSingleStep s).currentStep = nextIndex s ∧
        (performSingleStep s).manualA = startSlope s - s.learningRate * g) := by
  constructor
  · intro hterm
    rw [performSingleStep_eq, if_pos hterm]
  · intro hle
    have hterm : ¬ iterations < nextIndex s := Nat.not_lt.mpr hle
    refine ⟨(calculateGradientDetails (startSlope s) s.dataPoints).finalGradient.getD 0,
      finalGradient_some _ hne, ?_, ?_, ?_⟩ <;>
      rw [performSingleStep_eq, if_neg hterm]

/-- Witness for C1 at the initial state (non-empty dataset, empty history). -/
theorem step_postcondition_witness :
    initialState.dataPoints ≠ [] ∧
    ((iterations < nextIndex initialState → performSingleStep initialState = initialState) ∧
     (nextIndex initialState ≤ iterations →
       ∃ g, (calculateGradientDetails (startSlope initialState)
            initialState.dataPoints).finalGradient = some g ∧
         (performSingleStep initialState).gdHistory = initialState.gdHistory ++
           [{ step := nextIndex initialState, a := round4 (startSlope initialState),
              mse := round4 (calculateMSE (startSlope initialState) initialState.dataPoints),
              gradient := round4 g }] ∧
         (performSingleStep initialState).currentStep = nextIndex initialState ∧
         (performSingleStep initialState).manualA =
           startSlope initialState - initialState.learningRate * g)) :=
  ⟨by decide, step_postcondition initialState (by decide)⟩

/-- C2: `computeGradient` postcondition.  For a dataset with `i` in range
(hence non-empty), the breakdown has one entry per point in input order with
1-based `id` and the chain-rule fields, and `finalGradient` is the mean of
the contributions, `(2/n) * Σ (a·xᵢ − yᵢ)·xᵢ`. -/
theorem gradient_postcondition (a : ℚ) (data : List Point) (i : ℕ)
    (hi : i < data.length) :
    (calculateGradientDetails a data).pointGradients.length = data.length ∧
    (calculateGradientDetails a data).pointGradients[i]? =
      some { id := i + 1, x := data[i].x, y := data[i].y,
             prediction := a * data[i].x,
             errorTerm := a * data[i].x - data[i].y,
             contribution := 2 * (a * data[i].x - data[i].y) * data[i].x } ∧
    (calculateGradientDetails a data).finalGradient =
      some ((2 / (data.length : ℚ)) *
        (data.map (fun p => (a * p.x - p.y) * p.x)).sum) := by
  have hne : data ≠ [] := by
    intro hnil
    rw [hnil] at hi
    exact absurd hi (by simp)
  have hn : (data.length : ℚ) ≠ 0 := by simpa using hne
  refine ⟨?_, ?_, ?_⟩
  · simp [calculateGradientDetails]
  · simp only [calculateGradientDetails]
    rw [List.getElem?_mapIdx, List.getElem?_eq_getElem hi]
    rfl
  · simp only [calculateGradientDetails, jsDiv, hn, ite_false, if_false]
    rw [map_of_mapIdx _ _ (fun p => 2 * (a * p.x - p.y) * p.x) (fun i x => rfl) data]
    rw [show (fun p : Point => 2 * (a * p.x - p.y) * p.x) =
        (fun p : Point => 2 * ((a * p.x - p.y) * p.x)) from funext fun p => by ring]
    rw [sum_map_two_mul]
    rw [Option.some_inj]
    ring

/-- Witness for C2: the exact-fit dataset of the spec at `a = 2`, `i = 0`. -/
theorem gradient_postcondition_witness :
    0 < ([⟨1, 2⟩, ⟨2, 4⟩] : List Point).length ∧
    ((calculateGradientDetails 2 [⟨1, 2⟩, ⟨2, 4⟩]).pointGradients.length =
      ([⟨1, 2⟩, ⟨2, 4⟩] : List Point).length ∧
    (calculateGradientDetails 2 [⟨1, 2⟩, ⟨2, 4⟩]).pointGradients[0]? =
      some { id := 0 + 1, x := (([⟨1, 2⟩, ⟨2, 4⟩] : List Point)[0]).x,
             y := (([⟨1, 2⟩, ⟨2, 4⟩] : List Point)[0]).y,
             prediction := 2 * (([⟨1, 2⟩, ⟨2, 4⟩] : List Point)[0]).x,
             errorTerm := 2 * (([⟨1, 2⟩, ⟨2, 4⟩] : List Point)[0]).x -
               (([⟨1, 2⟩, ⟨2, 4⟩] : List Point)[0]).y,
             contribution := 2 * (2 * (([⟨1, 2⟩, ⟨2, 4⟩] : List Point)[0]).x -
               (([⟨1, 2⟩, ⟨2, 4⟩] : List Point)[0]).y) *
               (([⟨1, 2⟩, ⟨2, 4⟩] : List Point)[0]).x } ∧
    (calculateGradientDetails 2 [⟨1, 2⟩, ⟨2, 4⟩]).finalGradient =
      some ((2 / (([⟨1, 2⟩, ⟨2, 4⟩] : List Point).length : ℚ)) *
        (([⟨1, 2⟩, ⟨2, 4⟩] : List Point).map (fun p => (2 * p.x - p.y) * p.x)).sum)) :=
  ⟨by decide, gradient_postcondition 2 [⟨1, 2⟩, ⟨2, 4⟩] 0 (by decide)⟩

/-- C3: `computeMSE` postcondition: `0` on the empty dataset, else the mean
of the squared residuals `(a·xᵢ − yᵢ)²`.  (Purity holds by construction:
the embedding is a pure function of its arguments, as is the JS original,
which reads nothing but them.) -/
theorem mse_postcondition (a : ℚ) (data : List Point) (hne : data ≠ []) :
    calculateMSE a [] = 0 ∧
    calculateMSE a data =
      (data.map (fun p => (a * p.x - p.y) ^ 2)).sum / (data.length : ℚ) := by
  have hlen : ¬ data.length = 0 := by simpa using hne
  constructor
  · rfl
  · simp only [calculateMSE, hlen, ite_false, if_false]
    rw [foldl_add_eq (fun p => (a * p.x - p.y) * (a * p.x - p.y)) data 0]
    rw [show (fun p : Point => (a * p.x - p.y) * (a * p.x - p.y)) =
        (fun p : Point => (a * p.x - p.y) ^ 2) from funext fun p => by ring]
    rw [zero_add]

/-- Witness for C3 at `a = 2` on the spec's exact-fit dataset. -/
theorem mse_postcondition_witness :
    ([⟨1, 2⟩, ⟨2, 4⟩] : List Point) ≠ [] ∧
    (calculateMSE 2 [] = 0 ∧
     calculateMSE 2 [⟨1, 2⟩, ⟨2, 4⟩] =
       (([⟨1, 2⟩, ⟨2, 4⟩] : List Point).map (fun p => (2 * p.x - p.y) ^ 2)).sum /
         (([⟨1, 2⟩, ⟨2, 4⟩] : List Point).length : ℚ)) :=
  ⟨by decide, mse_postcondition 2 [⟨1, 2⟩, ⟨2, 4⟩] (by decide)⟩

/-- C10: `calculateGradientDetails` has no empty-dataset guard (unlike
`calculateMSE`): on `data = []` it returns an empty per-point breakdown and
performs the division `0 / n` with `n = 0`, whose JS result `NaN` is the
`none` of `jsDiv`; no error is raised (the function is total). -/
theorem gradient_empty_dataset_nan (a : ℚ) :
    calculateGradientDetails a [] =
      { finalGradient := jsDiv 0 0, pointGradients := [] } ∧
    jsDiv 0 0 = none := by
  constructor
  · simp [calculateGradientDetails]
  · simp [jsDiv]

/-- C7: the manual slope override (slider onChange) stops the animation and
changes nothing but `manualA`: the history (hence its length) and
`currentStep` are untouched — no `StepRecord` is ever appended. -/
theorem manual_override_frame (s : SimState) (v : ℚ) :
    (handleManualAChange s v).gdHistory = s.gdHistory ∧
    (handleManualAChange s v).gdHistory.length = s.gdHistory.length ∧
    (handleManualAChange s v).currentStep = s.currentStep ∧
    (handleManualAChange s v).isAnimating = false ∧
    (handleManualAChange s v).manualA = v :=
  ⟨rfl, rfl, rfl, rfl, rfl⟩

/-- C5 exhibit (code bug): editing the initial slope from 0 to 5 resets
history, step counter and running flag as the claim states, but leaves
`currentSlope` (`manualA`) at the OLD initial slope 0 instead of the new
initial slope 5 — `resetSimulation` runs against the stale pre-edit
`initialA` closure (App.js line 328 calls `setInitialA` and then
`resetSimulation`, which reads the not-yet-updated `initialA`).  The spec's
`currentSlope = initialSlope` clause therefore fails on this trigger. -/
theorem initial_slope_edit_stale_bug :
    (handleInitialAChange initialState 5).gdHistory = [] ∧
    (handleInitialAChange initialState 5).currentStep = 0 ∧
    (handleInitialAChange initialState 5).isAnimating = false ∧
    (handleInitialAChange initialState 5).initialA = 5 ∧
    (handleInitialAChange initialState 5).manualA = 0 ∧
    (handleInitialAChange initialState 5).manualA ≠
      (handleInitialAChange initialState 5).initialA := by
  refine ⟨rfl, rfl, rfl, rfl, rfl, ?_⟩
  decide

/-- C6 counterexample: a non-numeric entry in the initial-slope input is NOT
coerced to the fallback 0 — the raw value is stored and later consumed
through bare `parseFloat` (App.js lines 328, 78), yielding `NaN`. -/
theorem nonnumeric_initial_slope_not_zero :
    initialSlopeParsed none = JSNum.nan ∧ initialSlopeParsed none ≠ JSNum.num 0 := by
  decide

/-- C6 amended: only data-coordinate edits coerce non-numeric input to 0
(via `parseFloat(value) || 0`); the learning-rate and initial-slope inputs
parse non-numeric input to `NaN` with no fallback.  No path raises an
exception (every handler is total). -/
theorem nonnumeric_coercion (s : SimState) (index : ℕ) (field : Coord)
    (h : index < s.dataPoints.length) :
    ((handleDataChange s index field none).dataPoints[index]?).map
        (fun p => getCoord p field) = some 0 ∧
    dataCoordParsed none = 0 ∧
    initialSlopeParsed none = JSNum.nan ∧
    learningRateParsed none = JSNum.nan := by
  refine ⟨?_, rfl, rfl, rfl⟩
  simp only [handleDataChange, resetSimulation]
  rw [List.getElem?_mapIdx, List.getElem?_eq_getElem h]
  cases field <;> simp [setCoord, getCoord, jsOr, jsParseFloat]

/-- Witness for C6 (amended) at the initial state, first point, x field. -/
theorem nonnumeric_coercion_witness :
    0 < initialState.dataPoints.length ∧
    (((handleDataChange initialState 0 Coord.x none).dataPoints[0]?).map
        (fun p => getCoord p Coord.x) = some 0 ∧
     dataCoordParsed none = 0 ∧
     initialSlopeParsed none = JSNum.nan ∧
     learningRateParsed none = JSNum.nan) :=
  ⟨by decide, nonnumeric_coercion initialState 0 Coord.x (by decide)⟩

/-- C4: in every reachable state — any sequence of steps, resets, manual
overrides, dataset and hyperparameter edits — the recorded `step` fields
enumerate the history indices (`History[i].step = i`, stated as
`map step = range length`) and the history holds at most
`maxIterations + 1 = 31` records. -/
theorem history_invariant (s : SimState) (h : Reachable s) :
    s.gdHistory.map StepRecord.step = List.range s.gdHistory.length ∧
    s.gdHistory.length ≤ iterations + 1 :=
  ⟨(inv_reachable s h).1, (inv_reachable s h).2.1⟩

/-- Witness for C4 at a concrete reachable state: one `step` event from the
initial state. -/
theorem history_invariant_witness :
    Reachable (performSingleStep initialState) ∧
    ((performSingleStep initialState).gdHistory.map StepRecord.step =
      List.range (performSingleStep initialState).gdHistory.length ∧
    (performSingleStep initialState).gdHistory.length ≤ iterations + 1) :=
  ⟨⟨[Event.step], rfl⟩, history_invariant (performSingleStep initialState) ⟨[Event.step], rfl⟩⟩

/-- A state exhibiting the C8 round-trip failure: one data point `(100, 0)`
and an initial slope `1.00005` whose 4-dp rounding moves it to `1.0001`. -/
def c8State : SimState :=
  { dataPoints := [⟨100, 0⟩], manualA := 0, learningRate := 1/100,
    initialA := 20001/20000, gdHistory := [], isAnimating := false,
    currentStep := 0, stepDetails := none }

/-- C8 amended: the round-trip holds for every step whose start slope is
already exact at 4 decimal places (`round4 startSlope = startSlope`, e.g.
any slope with at most 4 decimals): the recorded `a` then equals the start
slope, so recomputing MSE and gradient at `a` and rounding reproduces the
recorded `mse` and `gradient` exactly. -/
theorem roundtrip_of_exact_slope (s : SimState) (hne : s.dataPoints ≠ [])
    (hex : round4 (startSlope s) = startSlope s)
    (hle : nextIndex s ≤ iterations) :
    ∃ r : StepRecord, (performSingleStep s).gdHistory.getLast? = some r ∧
      round4 (calculateMSE r.a s.dataPoints) = r.mse ∧
      ∃ g, (calculateGradientDetails r.a s.dataPoints).finalGradient = some g ∧
        round4 g = r.gradient := by
  have hterm : ¬ iterations < nextIndex s := Nat.not_lt.mpr hle
  rw [performSingleStep_eq, if_neg hterm]
  refine ⟨_, List.getLast?_concat _, ?_, ?_⟩
  · show round4 (calculateMSE (round4 (startSlope s)) s.dataPoints) = _
    rw [hex]
  · show ∃ g, (calculateGradientDetails (round4 (startSlope s)) s.dataPoints).finalGradient
      = some g ∧ round4 g = _
    rw [hex]
    exact ⟨_, finalGradient_some _ hne, rfl⟩

attribute [local semireducible] Rat.add Rat.mul Rat.inv Rat.sub

/-- C8 counterexample: the record produced by one `step()` from `c8State`
has `a = 1.0001` (the rounded start slope) and `mse = 10001`, but recomputing
the MSE at the recorded `a` gives `10002.0001` — off by more than 1, far
outside 4-decimal-place precision, under either reading (re-rounded equality
or absolute error below `10⁻⁴`). -/
theorem roundtrip_counterexample :
    (performSingleStep c8State).gdHistory =
      [{ step := 0, a := 10001/10000, mse := 10001, gradient := 20001 }] ∧
    round4 (calculateMSE (10001/10000) c8State.dataPoints) ≠ (10001 : ℚ) ∧
    (1 : ℚ) ≤ |calculateMSE (10001/10000) c8State.dataPoints - 10001| := by
  refine ⟨by decide, by decide, by decide⟩

/-- Witness for C8 (amended) at the initial state: the start slope 0 is
exact at 4 decimals. -/
theorem roundtrip_of_exact_slope_witness :
    (initialState.dataPoints ≠ [] ∧ round4 (startSlope initialState) = startSlope initialState ∧
      nextIndex initialState ≤ iterations) ∧
    (∃ r : StepRecord, (performSingleStep initialState).gdHistory.getLast? = some r ∧
      round4 (calculateMSE r.a initialState.dataPoints) = r.mse ∧
      ∃ g, (calculateGradientDetails r.a initialState.dataPoints).finalGradient = some g ∧
        round4 g = r.gradient) :=
  ⟨⟨by decide, by decide, by decide⟩,
    roundtrip_of_exact_slope initialState (by decide) (by decide) (by decide)⟩

/-- The C9 scenario: a dataset lying exactly on `y = 2x`, learning rate
`0.001`, initial slope `0`, empty history. -/
def c9State : SimState :=
  { dataPoints := [⟨1, 2⟩, ⟨2, 4⟩], manualA := 0, learningRate := 1/1000,
    initialA := 0, gdHistory := [], isAnimating := false, currentStep := 0,
    stepDetails := none }

set_option maxRecDepth 4000 in
/-- C9: after 30 `step()` calls on the exactly-linear dataset `y = 2x` with
learning rate `0.001` from initial slope `0`, the history holds 30 records
and the last recorded MSE (`7.4772`) is strictly below the step-0 recorded
MSE (`10`). -/
theorem convergence_check :
    ((performSingleStep^[30]) c9State).gdHistory.length = 30 ∧
    ∃ r0 rN,
      ((performSingleStep^[30]) c9State).gdHistory.head? = some r0 ∧
      ((performSingleStep^[30]) c9State).gdHistory.getLast? = some rN ∧
      rN.mse < r0.mse := by
  refine ⟨by decide, ⟨{ step := 0, a := 0, mse := 10, gradient := -10 },
    { step := 29, a := 1353/5000, mse := 18693/2500, gradient := -86471/10000 },
    by decide, by decide, by decide⟩⟩

end GradientDescentSim
